import Mathlib

set_option maxHeartbeats 1600000

/-!
Shallow embedding, over exact rationals, of the 2D convolution engine in
src/grid.rs of the cellular-automaton repository.

Modelling conventions:
* f32 values are modelled as ℚ.  Every f32 constant in the source is a dyadic
  fraction (kernel tables) or k/255 (random fill), all exactly representable
  in f32, so the constant tables coincide with their f32 values; theorems
  about exact equality of exactly representable values transfer, and the
  stated tolerances (1e-5, 1e-6) are met a fortiori by exact equality.
* Vec indexing that can panic is modelled as Option (Grid.get?) where a claim
  is about the panic itself; inside the convolvers, where the loop guards keep
  every access in bounds for well-formed inputs, accesses are modelled totally
  with List.getD and theorems carry the well-formedness hypotheses (Grid.WF,
  Kernel.WF) that hold for every grid/kernel the program builds.
* The external FFT (rustfft) is not code of this repository; the forward and
  inverse transforms are abstract function parameters of convolve_fft, which
  embeds everything the repository's own code does around them.
* The external ChaCha8 generator (rand_chacha) is likewise abstracted: the
  seed-to-stream map is a function parameter, and a gen_range(0..255) draw is
  modelled as raw % 255, the defining property (a value in [0,255)) of the
  rand crate's contract.
-/

/-- RGBA color, grid.rs lines 7-13: four f32 channels, modelled as ℚ. -/
structure RGBA where
  r : ℚ
  g : ℚ
  b : ℚ
  a : ℚ
deriving DecidableEq

/-- Cell, grid.rs lines 15-18: a wrapper around one RGBA color. -/
structure Cell where
  color : RGBA
deriving DecidableEq

/-- Center, grid.rs lines 19-22. -/
structure Center where
  x : ℕ
  y : ℕ

/-- Grid, grid.rs lines 24-29: width, height and a flat row-major cell list. -/
structure Grid where
  width : ℕ
  height : ℕ
  cells : List Cell
deriving DecidableEq

/-- Kernel, grid.rs lines 31-35: dimensions plus a row list of weight rows. -/
structure Kernel where
  width : ℕ
  height : ℕ
  cells : List (List ℚ)
deriving DecidableEq

def zeroRGBA : RGBA := ⟨0, 0, 0, 0⟩

def zeroCell : Cell := ⟨zeroRGBA⟩

/-- Rust v.clamp(0.0, 1.0): if v < 0 then 0 else if v > 1 then 1 else v. -/
def clamp01 (v : ℚ) : ℚ := if v < 0 then 0 else if 1 < v then 1 else v

/-- Kernel::center, grid.rs lines 83-88: floor-division midpoint. -/
def Kernel.center (k : Kernel) : Center := ⟨k.width / 2, k.height / 2⟩

/-- Access kernel.cells[ky][kx]; the convolvers only call it with ky < height
and kx < width, in bounds for well-formed kernels. -/
def Kernel.weight (k : Kernel) (ky kx : ℕ) : ℚ := (k.cells.getD ky []).getD kx 0

/-- The (ky, kx) pairs visited by the nested tap loops of the convolvers
(ky outer over 0..height, kx inner over 0..width), in iteration order. -/
def Kernel.taps (k : Kernel) : List (ℕ × ℕ) :=
  (List.range k.height).flatMap (fun ky => (List.range k.width).map (fun kx => (ky, kx)))

/-- Well-formed kernel: the row list matches the declared dimensions.  Every
kernel the program constructs (the gauss presets) satisfies this. -/
def Kernel.WF (k : Kernel) : Prop :=
  k.cells.length = k.height ∧ ∀ row ∈ k.cells, row.length = k.width

/-- Sum of all weights the tap loops can see (for a well-formed kernel, the
sum of every entry of the table). -/
def kernelSum (k : Kernel) : ℚ := (k.taps.map (fun t => k.weight t.1 t.2)).sum

/-- Kernel::gauss3, grid.rs lines 38-49. -/
def Kernel.gauss3 : Kernel :=
  ⟨3, 3,
   [[1/16, 2/16, 1/16],
    [2/16, 4/16, 2/16],
    [1/16, 2/16, 1/16]]⟩

/-- Kernel::gauss5, grid.rs lines 50-64. -/
def Kernel.gauss5 : Kernel :=
  ⟨5, 5,
   [[1/256, 4/256, 6/256, 4/256, 1/256],
    [4/256, 16/256, 24/256, 16/256, 4/256],
    [6/256, 24/256, 36/256, 24/256, 6/256],
    [4/256, 16/256, 24/256, 16/256, 4/256],
    [1/256, 4/256, 6/256, 4/256, 1/256]]⟩

/-- Kernel::gauss7, grid.rs lines 65-81. -/
def Kernel.gauss7 : Kernel :=
  ⟨7, 7,
   [[1/4096, 6/4096, 15/4096, 20/4096, 15/4096, 6/4096, 1/4096],
    [6/4096, 36/4096, 90/4096, 120/4096, 90/4096, 36/4096, 6/4096],
    [15/4096, 90/4096, 225/4096, 300/4096, 225/4096, 90/4096, 15/4096],
    [20/4096, 120/4096, 300/4096, 400/4096, 300/4096, 120/4096, 20/4096],
    [15/4096, 90/4096, 225/4096, 300/4096, 225/4096, 90/4096, 15/4096],
    [6/4096, 36/4096, 90/4096, 120/4096, 90/4096, 36/4096, 6/4096],
    [1/4096, 6/4096, 15/4096, 20/4096, 15/4096, 6/4096, 1/4096]]⟩

/-- Grid::index, grid.rs lines 92-95: flat row-major index. -/
def Grid.index (g : Grid) (x y : ℕ) : ℕ := y * g.width + x

/-- Grid::get, grid.rs lines 97-100: Vec indexing panics when the flat index
is at least cells.len(); the panic is modelled as none. -/
def Grid.get? (g : Grid) (x y : ℕ) : Option Cell := g.cells[g.index x y]?

/-- Total variant of Grid::get used inside the convolvers, whose guards make
every access in bounds on well-formed grids. -/
def Grid.getD (g : Grid) (x y : ℕ) : Cell := g.cells.getD (g.index x y) zeroCell

/-- Well-formed grid: the flat buffer has exactly width*height cells.  Every
grid the program constructs satisfies this. -/
def Grid.WF (g : Grid) : Prop := g.cells.length = g.width * g.height

/-- One iteration of the inner tap loop of Grid::convolve, grid.rs lines
254-270: guards dx < 0 || dy < 0 and dx >= width || dy >= height skip the
tap; otherwise r, g and b are accumulated.  The source accumulates only r, g
and b here (line 266-268); the a field of the accumulator is untouched. -/
def stepDirect (g : Grid) (k : Kernel) (x y : ℕ) (acc : RGBA) (t : ℕ × ℕ) : RGBA :=
  let dx : ℤ := (x : ℤ) + t.2 - (k.center.x : ℤ)
  let dy : ℤ := (y : ℤ) + t.1 - (k.center.y : ℤ)
  if dx < 0 ∨ dy < 0 then acc
  else if (g.width : ℤ) ≤ dx ∨ (g.height : ℤ) ≤ dy then acc
  else
    let c := (g.getD dx.toNat dy.toNat).color
    let w := k.weight t.1 t.2
    ⟨acc.r + c.r * w, acc.g + c.g * w, acc.b + c.b * w, acc.a⟩

/-- One iteration of the inner tap loop of Grid::convolve_par, grid.rs lines
204-221: identical guards, but all four channels are accumulated. -/
def stepPar (g : Grid) (k : Kernel) (x y : ℕ) (acc : RGBA) (t : ℕ × ℕ) : RGBA :=
  let dx : ℤ := (x : ℤ) + t.2 - (k.center.x : ℤ)
  let dy : ℤ := (y : ℤ) + t.1 - (k.center.y : ℤ)
  if dx < 0 ∨ dy < 0 then acc
  else if (g.width : ℤ) ≤ dx ∨ (g.height : ℤ) ≤ dy then acc
  else
    let c := (g.getD dx.toNat dy.toNat).color
    let w := k.weight t.1 t.2
    ⟨acc.r + c.r * w, acc.g + c.g * w, acc.b + c.b * w, acc.a + c.a * w⟩

/-- Contribution of one tap to one channel: 0 when the tap is skipped by the
boundary guards, neighbor-channel * weight otherwise. -/
def tapTerm (g : Grid) (k : Kernel) (x y : ℕ) (t : ℕ × ℕ) (ch : RGBA → ℚ) : ℚ :=
  let dx : ℤ := (x : ℤ) + t.2 - (k.center.x : ℤ)
  let dy : ℤ := (y : ℤ) + t.1 - (k.center.y : ℤ)
  if dx < 0 ∨ dy < 0 then 0
  else if (g.width : ℤ) ≤ dx ∨ (g.height : ℤ) ≤ dy then 0
  else ch (g.getD dx.toNat dy.toNat).color * k.weight t.1 t.2

/-- Sum over in-bounds kernel taps of neighbor-channel * weight. -/
def channelSum (g : Grid) (k : Kernel) (x y : ℕ) (ch : RGBA → ℚ) : ℚ :=
  (k.taps.map (fun t => tapTerm g k x y t ch)).sum

/-- The color Grid::convolve computes for pixel (x, y): the tap loop run on
an all-zero accumulator.  No clamping is applied afterwards. -/
def directColorAt (g : Grid) (k : Kernel) (x y : ℕ) : RGBA :=
  k.taps.foldl (stepDirect g k x y) zeroRGBA

/-- The accumulator Grid::convolve_par computes for pixel (x, y) before
clamping. -/
def parRawAt (g : Grid) (k : Kernel) (x y : ℕ) : RGBA :=
  k.taps.foldl (stepPar g k x y) zeroRGBA

/-- The color Grid::convolve_par stores for pixel (x, y): each channel of the
accumulator clamped to [0,1], grid.rs lines 222-227. -/
def parColorAt (g : Grid) (k : Kernel) (x y : ℕ) : RGBA :=
  let c := parRawAt g k x y
  ⟨clamp01 c.r, clamp01 c.g, clamp01 c.b, clamp01 c.a⟩

/-- Grid::convolve, grid.rs lines 241-276: clone the buffer, overwrite every
flat index y*width+x with x < width, y < height (equivalently every flat
index below width*height) with the freshly computed color, reading only the
original cells. -/
def Grid.convolve (g : Grid) (k : Kernel) : Grid :=
  ⟨g.width, g.height,
    (List.range g.cells.length).map (fun i =>
      if i < g.width * g.height then ⟨directColorAt g k (i % g.width) (i / g.width)⟩
      else g.cells.getD i zeroCell)⟩

/-- Grid::convolve_par, grid.rs lines 190-239: for every flat index below
width*height the cell (x, y) = (index % width, index / width) is recomputed
(this is literally how the source recovers x and y from the flat index) and
written back; all workers read the same original grid, and the write-back
loop stores each computed cell at its own index. -/
def Grid.convolve_par (g : Grid) (k : Kernel) : Grid :=
  ⟨g.width, g.height,
    (List.range g.cells.length).map (fun i =>
      if i < g.width * g.height then ⟨parColorAt g k (i % g.width) (i / g.width)⟩
      else g.cells.getD i zeroCell)⟩

/-- Complex number with rational parts, standing for rustfft's Complex of f32. -/
structure ComplexQ where
  re : ℚ
  im : ℚ
deriving DecidableEq

def ComplexQ.zero : ComplexQ := ⟨0, 0⟩

/-- Complex multiplication, the operation applied pointwise between the two
transformed buffers. -/
def ComplexQ.mul (u v : ComplexQ) : ComplexQ :=
  ⟨u.re * v.re - u.im * v.im, u.re * v.im + u.im * v.re⟩

/-- padded_width = grid_width + kernel_width - 1, grid.rs line 111 (usize
subtraction; defined as truncated ℕ subtraction, matching Rust whenever the
sum is at least 1). -/
def paddedWidth (g : Grid) (k : Kernel) : ℕ := g.width + k.width - 1

/-- padded_height = grid_height + kernel_height - 1, grid.rs line 112. -/
def paddedHeight (g : Grid) (k : Kernel) : ℕ := g.height + k.height - 1

/-- The flattened transform length padded_width * padded_height handed to the
planner, grid.rs lines 117 and 120. -/
def fftPlanSize (g : Grid) (k : Kernel) : ℕ := paddedWidth g k * paddedHeight g k

/-- Single-point update of a buffer modelled as an index-to-value function. -/
def updBuf (f : ℕ → ComplexQ) (i : ℕ) (v : ComplexQ) : ℕ → ComplexQ :=
  fun j => if j = i then v else f j

/-- The channel-copy loop, grid.rs lines 130-139: starting from an all-zero
buffer, write the channel of cell (x, y) at padded index y*padded_width+x for
every y < grid_height, x < grid_width.  The function-update model drops the
Rust Vec bounds check, so it is faithful only while every written index is
below the buffer length padded_width*padded_height (guaranteed when all four
dimensions are at least 1); the checked wrapper Grid.convolve_fft? restores
the panic for the degenerate shapes outside that envelope. -/
def fillChannel (g : Grid) (pw : ℕ) (ch : RGBA → ℚ) : ℕ → ComplexQ :=
  (List.range g.height).foldl
    (fun buf y => (List.range g.width).foldl
      (fun buf x => updBuf buf (y * pw + x) ⟨ch (g.getD x y).color, 0⟩) buf)
    (fun _ => ComplexQ.zero)

/-- The kernel-copy loop, grid.rs lines 141-146.  As with fillChannel, the
total update is faithful only while every written index y*padded_width+x
(y < kernel_height, x < kernel_width) is below the buffer length; e.g. a
zero-height grid with a 3x3 kernel makes the write at (kernel_height-1) *
padded_width reach the buffer length and panic in Rust, which the checked
wrapper Grid.convolve_fft? models as none. -/
def fillKernel (k : Kernel) (pw : ℕ) : ℕ → ComplexQ :=
  (List.range k.height).foldl
    (fun buf y => (List.range k.width).foldl
      (fun buf x => updBuf buf (y * pw + x) ⟨k.weight y x, 0⟩) buf)
    (fun _ => ComplexQ.zero)

/-- The pointwise product loop, grid.rs lines 156-161: indices below the
padded length are multiplied by the transformed kernel; others are untouched. -/
def pointwiseMulFft (n : ℕ) (u v : ℕ → ComplexQ) : ℕ → ComplexQ :=
  fun i => if i < n then ComplexQ.mul (u i) (v i) else u i

/-- One channel's pipeline around the abstract transforms: forward-transform
the padded channel and kernel buffers, multiply pointwise, inverse-transform. -/
def fftChannelOut (fft ifft : (ℕ → ComplexQ) → ℕ → ComplexQ) (g : Grid) (k : Kernel)
    (ch : RGBA → ℚ) : ℕ → ComplexQ :=
  ifft (pointwiseMulFft (fftPlanSize g k)
    (fft (fillChannel g (paddedWidth g k) ch)) (fft (fillKernel k (paddedWidth g k))))

/-- Grid::convolve_fft, grid.rs lines 108-188, with the external rustfft
forward and inverse transforms as abstract parameters.  The write-back loop
(lines 170-187) reads the inverse-transformed buffer at padded index
(y + kernel_center.y) * padded_width + (x + kernel_center.x), divides the
real part by padded_width*padded_height and clamps each channel to [0,1]. -/
def Grid.convolve_fft (g : Grid) (fft ifft : (ℕ → ComplexQ) → ℕ → ComplexQ)
    (k : Kernel) : Grid :=
  let pw := paddedWidth g k
  let n : ℚ := (fftPlanSize g k : ℚ)
  let rOut := fftChannelOut fft ifft g k RGBA.r
  let gOut := fftChannelOut fft ifft g k RGBA.g
  let bOut := fftChannelOut fft ifft g k RGBA.b
  let aOut := fftChannelOut fft ifft g k RGBA.a
  let kc := k.center
  ⟨g.width, g.height,
    (List.range g.cells.length).map (fun i =>
      if i < g.width * g.height then
        ⟨⟨clamp01 ((rOut ((i / g.width + kc.y) * pw + (i % g.width + kc.x))).re / n),
          clamp01 ((gOut ((i / g.width + kc.y) * pw + (i % g.width + kc.x))).re / n),
          clamp01 ((bOut ((i / g.width + kc.y) * pw + (i % g.width + kc.x))).re / n),
          clamp01 ((aOut ((i / g.width + kc.y) * pw + (i % g.width + kc.x))).re / n)⟩⟩
      else g.cells.getD i zeroCell)⟩

/-- The 32-byte all-zero seed [0; 32] passed to ChaCha8Rng::from_seed,
grid.rs line 286. -/
def seed0 : List ℕ := List.replicate 32 0

/-- Grid::new_random, grid.rs lines 285-311.  fromSeed is the external
generator: it maps the seed to the stream of raw draws (draw number to raw
value).  Each cell consumes three consecutive gen_range(0..255) draws, in
buffer order; a draw is modelled as raw % 255, a uniform integer in [0,255)
as the rand contract specifies for gen_range(0..255).  The alpha channel is
the constant 1.0.  Both the seed and the dimension-to-grid mapping contain no
other source of variation, so the function is deterministic in (width,
height) once fromSeed is fixed. -/
def new_random (fromSeed : List ℕ → ℕ → ℕ) (width height : ℕ) : Grid :=
  ⟨width, height,
    (List.range (width * height)).map (fun i =>
      ⟨⟨((fromSeed seed0 (3 * i) % 255 : ℕ) : ℚ) / 255,
        ((fromSeed seed0 (3 * i + 1) % 255 : ℕ) : ℚ) / 255,
        ((fromSeed seed0 (3 * i + 2) % 255 : ℕ) : ℚ) / 255, 1⟩⟩)⟩

/-- Grid filled uniformly with one color. -/
def uniformGrid (w h : ℕ) (c : RGBA) : Grid := ⟨w, h, List.replicate (w * h) ⟨c⟩⟩

/-- The 1x1 identity kernel of weight 1.0. -/
def kId1 : Kernel := ⟨1, 1, [[1]]⟩

/-- 1x1 kernel with the single weight 3.0 (a malformed user kernel whose
weights do not sum to 1). -/
def kTriple : Kernel := ⟨1, 1, [[3]]⟩

/-- Concrete 1x1 grid whose only cell is solid white (1,1,1,1). -/
def gEx1 : Grid := ⟨1, 1, [⟨⟨1, 1, 1, 1⟩⟩]⟩

/-- Concrete 3x2 grid with six pairwise distinct cells. -/
def gEx4 : Grid :=
  ⟨3, 2, [⟨⟨0, 0, 0, 1⟩⟩, ⟨⟨1, 0, 0, 1⟩⟩, ⟨⟨0, 1, 0, 1⟩⟩,
          ⟨⟨0, 0, 1, 1⟩⟩, ⟨⟨1, 1, 0, 1⟩⟩, ⟨⟨1, 0, 1, 1⟩⟩]⟩

/-- Concrete grid with zero width (and a nonzero height), the degenerate
shape claim C5 is about. -/
def gZero : Grid := ⟨0, 3, []⟩

/-- Concrete grid with zero height (and a nonzero width), the other
degenerate shape claim C5 is about. -/
def gRow : Grid := ⟨3, 0, []⟩

/-- Every padded-buffer access convolve_fft performs is in bounds: the
channel-copy writes y*padded_width+x for y < grid_height, x < grid_width
(grid.rs lines 130-139), the kernel-copy writes y*padded_width+x for
y < kernel_height, x < kernel_width (lines 141-146), and the readout reads
(y+center.y)*padded_width + (x+center.x) for y < grid_height,
x < grid_width (lines 171-179); the pointwise-product loop only touches
indices below padded_width*padded_height and is always in bounds.  In Rust
each of these Vec accesses is bounds-checked against the buffer length
padded_width*padded_height and panics when out of range. -/
def fftBufAccessesInBounds (g : Grid) (k : Kernel) : Prop :=
  (∀ y < g.height, ∀ x < g.width, y * paddedWidth g k + x < fftPlanSize g k) ∧
  (∀ y < k.height, ∀ x < k.width, y * paddedWidth g k + x < fftPlanSize g k) ∧
  (∀ y < g.height, ∀ x < g.width,
    (y + k.center.y) * paddedWidth g k + (x + k.center.x) < fftPlanSize g k)

instance (g : Grid) (k : Kernel) : Decidable (fftBufAccessesInBounds g k) := by
  unfold fftBufAccessesInBounds
  infer_instance

/-- Checked model of Grid::convolve_fft: none models the index-out-of-bounds
panic that fires in the buffer-copy or readout loops when some access
reaches the padded buffer length (possible only for degenerate zero
dimensions); otherwise the run completes with the total model's result.
Transform planning (grid.rs lines 114-121) happens before any buffer access,
so even the none case reaches the planner with size fftPlanSize. -/
def Grid.convolve_fft? (g : Grid) (fft ifft : (ℕ → ComplexQ) → ℕ → ComplexQ)
    (k : Kernel) : Option Grid :=
  if fftBufAccessesInBounds g k then some (g.convolve_fft fft ifft k) else none

/-- A flat row-major index built from in-range coordinates is in range. -/
lemma flat_lt {x y w h : ℕ} (hx : x < w) (hy : y < h) : y * w + x < w * h := by
  calc y * w + x < y * w + w := by omega
  _ = (y + 1) * w := by ring
  _ ≤ h * w := Nat.mul_le_mul_right _ hy
  _ = w * h := Nat.mul_comm _ _

lemma flat_mod {x y w : ℕ} (hx : x < w) : (y * w + x) % w = x := by
  rw [Nat.mul_comm y w, Nat.mul_add_mod]
  exact Nat.mod_eq_of_lt hx

lemma flat_div {x y w : ℕ} (hx : x < w) : (y * w + x) / w = y := by
  rw [Nat.mul_comm y w, Nat.mul_add_div (by omega : 0 < w)]
  simp [Nat.div_eq_of_lt hx]

lemma getElem?_range_map {α : Type} {f : ℕ → α} {len i : ℕ} (hi : i < len) :
    ((List.range len).map f)[i]? = some (f i) := by
  rw [List.getElem?_map, List.getElem?_range hi]
  rfl

/-- On a well-formed grid, in-range access returns the stored cell. -/
lemma get?_eq_getD (g : Grid) (hg : g.WF) (x y : ℕ) (hx : x < g.width) (hy : y < g.height) :
    g.cells[g.index x y]? = some (g.getD x y) := by
  have hlt : g.index x y < g.cells.length := by
    rw [hg]; exact flat_lt hx hy
  rw [Grid.getD, List.getD_eq_getElem?_getD, List.getElem?_eq_getElem hlt]
  rfl

lemma mem_taps {k : Kernel} {t : ℕ × ℕ} (ht : t ∈ k.taps) : t.1 < k.height ∧ t.2 < k.width := by
  simp only [Kernel.taps, List.mem_flatMap, List.mem_map, List.mem_range] at ht
  obtain ⟨ky, hky, kx, hkx, rfl⟩ := ht
  exact ⟨hky, hkx⟩

/-- The direct tap step adds the tap's contribution to r, g and b and leaves
the alpha accumulator untouched. -/
lemma stepDirect_eq (g : Grid) (k : Kernel) (x y : ℕ) (acc : RGBA) (t : ℕ × ℕ) :
    stepDirect g k x y acc t =
      ⟨acc.r + tapTerm g k x y t RGBA.r, acc.g + tapTerm g k x y t RGBA.g,
       acc.b + tapTerm g k x y t RGBA.b, acc.a⟩ := by
  unfold stepDirect tapTerm
  dsimp only
  split_ifs <;> simp

/-- The parallel tap step adds the tap's contribution to all four channels. -/
lemma stepPar_eq (g : Grid) (k : Kernel) (x y : ℕ) (acc : RGBA) (t : ℕ × ℕ) :
    stepPar g k x y acc t =
      ⟨acc.r + tapTerm g k x y t RGBA.r, acc.g + tapTerm g k x y t RGBA.g,
       acc.b + tapTerm g k x y t RGBA.b, acc.a + tapTerm g k x y t RGBA.a⟩ := by
  unfold stepPar tapTerm
  dsimp only
  split_ifs <;> simp

lemma foldl_stepDirect (g : Grid) (k : Kernel) (x y : ℕ) (l : List (ℕ × ℕ)) (acc : RGBA) :
    l.foldl (stepDirect g k x y) acc =
      ⟨acc.r + (l.map (fun t => tapTerm g k x y t RGBA.r)).sum,
       acc.g + (l.map (fun t => tapTerm g k x y t RGBA.g)).sum,
       acc.b + (l.map (fun t => tapTerm g k x y t RGBA.b)).sum,
       acc.a⟩ := by
  induction l generalizing acc with
  | nil => simp
  | cons t l ih =>
      rw [List.foldl_cons, ih, stepDirect_eq]
      simp only [List.map_cons, List.sum_cons, RGBA.mk.injEq]
      exact ⟨by ring, by ring, by ring, trivial⟩

lemma foldl_stepPar (g : Grid) (k : Kernel) (x y : ℕ) (l : List (ℕ × ℕ)) (acc : RGBA) :
    l.foldl (stepPar g k x y) acc =
      ⟨acc.r + (l.map (fun t => tapTerm g k x y t RGBA.r)).sum,
       acc.g + (l.map (fun t => tapTerm g k x y t RGBA.g)).sum,
       acc.b + (l.map (fun t => tapTerm g k x y t RGBA.b)).sum,
       acc.a + (l.map (fun t => tapTerm g k x y t RGBA.a)).sum⟩ := by
  induction l generalizing acc with
  | nil => simp
  | cons t l ih =>
      rw [List.foldl_cons, ih, stepPar_eq]
      simp only [List.map_cons, List.sum_cons, RGBA.mk.injEq]
      exact ⟨by ring, by ring, by ring, by ring⟩

/-- The direct convolver's per-pixel color: r, g and b are the tap sums, and
alpha is 0 because the source never accumulates it. -/
lemma directColorAt_eq (g : Grid) (k : Kernel) (x y : ℕ) :
    directColorAt g k x y =
      ⟨channelSum g k x y RGBA.r, channelSum g k x y RGBA.g, channelSum g k x y RGBA.b, 0⟩ := by
  unfold directColorAt channelSum zeroRGBA
  rw [foldl_stepDirect]
  simp

lemma parRawAt_eq (g : Grid) (k : Kernel) (x y : ℕ) :
    parRawAt g k x y =
      ⟨channelSum g k x y RGBA.r, channelSum g k x y RGBA.g, channelSum g k x y RGBA.b,
       channelSum g k x y RGBA.a⟩ := by
  unfold parRawAt channelSum zeroRGBA
  rw [foldl_stepPar]
  simp

lemma parColorAt_eq (g : Grid) (k : Kernel) (x y : ℕ) :
    parColorAt g k x y =
      ⟨clamp01 (channelSum g k x y RGBA.r), clamp01 (channelSum g k x y RGBA.g),
       clamp01 (channelSum g k x y RGBA.b), clamp01 (channelSum g k x y RGBA.a)⟩ := by
  rw [parColorAt, parRawAt_eq]

/-- Reading the direct convolver's output at an in-range pixel. -/
lemma convolve_get (g : Grid) (k : Kernel) (hg : g.WF) (x y : ℕ)
    (hx : x < g.width) (hy : y < g.height) :
    (g.convolve k).cells[g.index x y]? = some ⟨directColorAt g k x y⟩ := by
  have hlt : y * g.width + x < g.cells.length := by
    rw [hg]; exact flat_lt hx hy
  rw [Grid.convolve, Grid.index]
  rw [getElem?_range_map hlt]
  rw [if_pos (flat_lt hx hy), flat_mod hx, flat_div hx]

/-- Reading the parallel convolver's output at an in-range pixel. -/
lemma convolve_par_get (g : Grid) (k : Kernel) (hg : g.WF) (x y : ℕ)
    (hx : x < g.width) (hy : y < g.height) :
    (g.convolve_par k).cells[g.index x y]? = some ⟨parColorAt g k x y⟩ := by
  have hlt : y * g.width + x < g.cells.length := by
    rw [hg]; exact flat_lt hx hy
  rw [Grid.convolve_par, Grid.index]
  rw [getElem?_range_map hlt]
  rw [if_pos (flat_lt hx hy), flat_mod hx, flat_div hx]

/-- When both boundary guards are false the tap contributes
neighbor-channel * weight. -/
lemma tapTerm_in_range (g : Grid) (k : Kernel) (x y : ℕ) (t : ℕ × ℕ) (ch : RGBA → ℚ)
    (h1 : (k.center.x : ℤ) ≤ (x : ℤ) + t.2) (h2 : (k.center.y : ℤ) ≤ (y : ℤ) + t.1)
    (h3 : (x : ℤ) + t.2 - k.center.x < g.width) (h4 : (y : ℤ) + t.1 - k.center.y < g.height) :
    tapTerm g k x y t ch =
      ch (g.getD ((x : ℤ) + t.2 - k.center.x).toNat ((y : ℤ) + t.1 - k.center.y).toNat).color *
        k.weight t.1 t.2 := by
  unfold tapTerm
  dsimp only
  rw [if_neg (by omega), if_neg (by omega)]

/-- Tap sum against the 1x1 identity kernel: the single tap reads cell (x, y)
with weight 1. -/
lemma channelSum_kId1 (g : Grid) (x y : ℕ) (hx : x < g.width) (hy : y < g.height)
    (ch : RGBA → ℚ) : channelSum g kId1 x y ch = ch (g.getD x y).color := by
  simp only [channelSum, Kernel.taps, show kId1.height = 1 from rfl,
    show kId1.width = 1 from rfl, List.range_succ, List.range_zero, List.nil_append,
    List.flatMap_cons, List.flatMap_nil, List.map_cons, List.map_nil, List.append_nil,
    List.sum_cons, List.sum_nil]
  rw [tapTerm_in_range g kId1 x y (0, 0) ch (by simp [kId1, Kernel.center])
    (by simp [kId1, Kernel.center]) (by simp [kId1, Kernel.center]; omega)
    (by simp [kId1, Kernel.center]; omega)]
  simp [kId1, Kernel.center, Kernel.weight]

lemma uniformGrid_getD (w h : ℕ) (c : RGBA) (x y : ℕ) (hx : x < w) (hy : y < h) :
    (uniformGrid w h c).getD x y = ⟨c⟩ := by
  unfold uniformGrid Grid.getD Grid.index
  dsimp only
  rw [List.getD_eq_getElem?_getD, List.getElem?_replicate, if_pos (flat_lt hx hy)]
  rfl

/-- On a uniform grid, a tap whose footprint stays inside the raster
contributes the uniform color times its weight. -/
lemma tapTerm_uniform (w h : ℕ) (c : RGBA) (k : Kernel) (x y : ℕ)
    (hxl : k.center.x ≤ x) (hxr : x + k.width ≤ w + k.center.x)
    (hyl : k.center.y ≤ y) (hyr : y + k.height ≤ h + k.center.y)
    (t : ℕ × ℕ) (ht : t ∈ k.taps) (ch : RGBA → ℚ) :
    tapTerm (uniformGrid w h c) k x y t ch = ch c * k.weight t.1 t.2 := by
  obtain ⟨hth, htw⟩ := mem_taps ht
  have hw : (uniformGrid w h c).width = w := rfl
  have hh : (uniformGrid w h c).height = h := rfl
  rw [tapTerm_in_range (uniformGrid w h c) k x y t ch (by omega) (by omega)
    (by rw [hw]; omega) (by rw [hh]; omega)]
  rw [uniformGrid_getD w h c _ _ (by omega) (by omega)]

/-- On a uniform grid, an interior pixel's tap sum is the uniform color times
the kernel's weight sum. -/
lemma channelSum_uniform (w h : ℕ) (c : RGBA) (k : Kernel) (x y : ℕ)
    (hxl : k.center.x ≤ x) (hxr : x + k.width ≤ w + k.center.x)
    (hyl : k.center.y ≤ y) (hyr : y + k.height ≤ h + k.center.y)
    (ch : RGBA → ℚ) :
    channelSum (uniformGrid w h c) k x y ch = ch c * kernelSum k := by
  unfold channelSum kernelSum
  rw [← List.sum_map_mul_left]
  congr 1
  apply List.map_congr_left
  intro t ht
  exact tapTerm_uniform w h c k x y hxl hxr hyl hyr t ht ch

/-- A value obtained as raw % 255 and scaled by 1/255 is k/255 with
k ≤ 254, hence in [0, 1). -/
lemma mod255_scaled (n : ℕ) :
    n % 255 ≤ 254 ∧ (0 : ℚ) ≤ ((n % 255 : ℕ) : ℚ) / 255 ∧ ((n % 255 : ℕ) : ℚ) / 255 < 1 := by
  have hlt : n % 255 < 255 := Nat.mod_lt _ (by norm_num)
  refine ⟨by omega, by positivity, ?_⟩
  rw [div_lt_one (by norm_num)]
  exact_mod_cast hlt

/-- C8: the weights of each Gaussian preset kernel (gauss3, gauss5, gauss7)
sum to 1.0 within 1e-6 (in fact exactly, in exact arithmetic). -/
theorem C8_gauss_kernel_sums :
    |kernelSum Kernel.gauss3 - 1| ≤ 1/1000000 ∧
    |kernelSum Kernel.gauss5 - 1| ≤ 1/1000000 ∧
    |kernelSum Kernel.gauss7 - 1| ≤ 1/1000000 := by
  have h3 : kernelSum Kernel.gauss3 = 1 := by
    simp only [kernelSum, Kernel.taps, Kernel.weight, Kernel.gauss3, List.range_succ,
      List.range_zero, List.nil_append, List.cons_append, List.flatMap_cons, List.flatMap_nil,
      List.map_cons, List.map_nil, List.append_nil, List.sum_cons, List.sum_nil]
    norm_num
  have h5 : kernelSum Kernel.gauss5 = 1 := by
    simp only [kernelSum, Kernel.taps, Kernel.weight, Kernel.gauss5, List.range_succ,
      List.range_zero, List.nil_append, List.cons_append, List.flatMap_cons, List.flatMap_nil,
      List.map_cons, List.map_nil, List.append_nil, List.sum_cons, List.sum_nil]
    norm_num
  have h7 : kernelSum Kernel.gauss7 = 1 := by
    simp only [kernelSum, Kernel.taps, Kernel.weight, Kernel.gauss7, List.range_succ,
      List.range_zero, List.nil_append, List.cons_append, List.flatMap_cons, List.flatMap_nil,
      List.map_cons, List.map_nil, List.append_nil, List.sum_cons, List.sum_nil]
    norm_num
  rw [h3, h5, h7]
  norm_num

/-- C1 counterexample: on the 1x1 solid-white grid and the 1x1 identity
kernel, the direct convolver writes alpha 0 while the parallel convolver
writes alpha 1, a difference far beyond the claimed 1e-5 tolerance: the
direct convolver never accumulates the alpha channel. -/
theorem C1_counterexample :
    ((gEx1.convolve kId1).cells[0]?).map (fun c => c.color.a) = some 0 ∧
    ((gEx1.convolve_par kId1).cells[0]?).map (fun c => c.color.a) = some 1 ∧
    ¬ |(0 : ℚ) - 1| ≤ 1 / 100000 := by
  have h1 : (gEx1.convolve kId1).cells = [⟨⟨1, 1, 1, 0⟩⟩] := by
    simp [Grid.convolve, directColorAt, Kernel.taps, stepDirect, Kernel.weight, Kernel.center,
      Grid.getD, Grid.index, gEx1, kId1, List.range_succ, zeroCell, zeroRGBA]
  have h2 : (gEx1.convolve_par kId1).cells = [⟨⟨1, 1, 1, 1⟩⟩] := by
    simp [Grid.convolve_par, parColorAt, parRawAt, Kernel.taps, stepPar, Kernel.weight,
      Kernel.center, Grid.getD, Grid.index, gEx1, kId1, List.range_succ, zeroCell, zeroRGBA,
      clamp01]
  rw [h1, h2]
  refine ⟨rfl, rfl, by norm_num⟩

/-- C1 (amended): for every well-formed grid and kernel, at every pixel the
parallel convolver's r, g, b channels equal the direct convolver's r, g, b
channels clamped to [0,1] (so they agree exactly whenever the accumulated
sums already lie in [0,1]); the alpha channels differ: the direct convolver
writes 0 unconditionally while the parallel convolver writes the clamped
alpha tap sum. -/
theorem C1_direct_par_amended (g : Grid) (k : Kernel) (hg : g.WF) (x y : ℕ)
    (hx : x < g.width) (hy : y < g.height) :
    ∃ cd cp : Cell,
      (g.convolve k).cells[g.index x y]? = some cd ∧
      (g.convolve_par k).cells[g.index x y]? = some cp ∧
      cp.color.r = clamp01 cd.color.r ∧
      cp.color.g = clamp01 cd.color.g ∧
      cp.color.b = clamp01 cd.color.b ∧
      cd.color.a = 0 ∧
      cp.color.a = clamp01 (channelSum g k x y RGBA.a) := by
  refine ⟨⟨directColorAt g k x y⟩, ⟨parColorAt g k x y⟩,
    convolve_get g k hg x y hx hy, convolve_par_get g k hg x y hx hy, ?_, ?_, ?_, ?_, ?_⟩ <;>
  simp [directColorAt_eq, parColorAt_eq]

/-- C1 witness: the amended statement instantiated on the concrete 1x1 grid
and identity kernel. -/
theorem C1_direct_par_amended_witness :
    ∃ cd cp : Cell,
      (gEx1.convolve kId1).cells[gEx1.index 0 0]? = some cd ∧
      (gEx1.convolve_par kId1).cells[gEx1.index 0 0]? = some cp ∧
      cp.color.r = clamp01 cd.color.r ∧
      cp.color.g = clamp01 cd.color.g ∧
      cp.color.b = clamp01 cd.color.b ∧
      cd.color.a = 0 ∧
      cp.color.a = clamp01 (channelSum gEx1 kId1 0 0 RGBA.a) :=
  C1_direct_par_amended gEx1 kId1 (by simp [Grid.WF, gEx1]) 0 0 (by decide) (by decide)

/-- C2 counterexample: on the 1x1 solid-white grid and the 1x1 kernel of
weight 3, the direct convolver writes r = 3 where the claim (sum then clamp)
predicts 1, and writes a = 0 where the claim predicts 1: the direct
convolver clamps nothing and never accumulates alpha. -/
theorem C2_counterexample :
    ((gEx1.convolve kTriple).cells[0]?).map (fun c => c.color.r) = some 3 ∧
    clamp01 (channelSum gEx1 kTriple 0 0 RGBA.r) = 1 ∧ (3 : ℚ) ≠ 1 ∧
    ((gEx1.convolve kTriple).cells[0]?).map (fun c => c.color.a) = some 0 ∧
    clamp01 (channelSum gEx1 kTriple 0 0 RGBA.a) = 1 ∧ (0 : ℚ) ≠ 1 := by
  have h1 : (gEx1.convolve kTriple).cells = [⟨⟨3, 3, 3, 0⟩⟩] := by
    simp [Grid.convolve, directColorAt, Kernel.taps, stepDirect, Kernel.weight, Kernel.center,
      Grid.getD, Grid.index, gEx1, kTriple, List.range_succ, zeroCell, zeroRGBA]
  have h2 : channelSum gEx1 kTriple 0 0 RGBA.r = 3 := by
    simp [channelSum, tapTerm, Kernel.taps, Kernel.weight, Kernel.center,
      Grid.getD, Grid.index, gEx1, kTriple, List.range_succ, zeroCell, zeroRGBA]
  have h3 : channelSum gEx1 kTriple 0 0 RGBA.a = 3 := by
    simp [channelSum, tapTerm, Kernel.taps, Kernel.weight, Kernel.center,
      Grid.getD, Grid.index, gEx1, kTriple, List.range_succ, zeroCell, zeroRGBA]
  rw [h1, h2, h3]
  refine ⟨rfl, by norm_num [clamp01], by norm_num, rfl, by norm_num [clamp01], by norm_num⟩

/-- C2 (amended): for every well-formed grid and kernel, at every pixel the
direct convolver writes r, g and b equal to the raw (unclamped) sum over
in-bounds kernel taps of neighbor-channel times weight, and writes alpha 0;
no clamping is applied to any channel. -/
theorem C2_direct_amended (g : Grid) (k : Kernel) (hg : g.WF) (x y : ℕ)
    (hx : x < g.width) (hy : y < g.height) :
    ∃ cd : Cell,
      (g.convolve k).cells[g.index x y]? = some cd ∧
      cd.color.r = channelSum g k x y RGBA.r ∧
      cd.color.g = channelSum g k x y RGBA.g ∧
      cd.color.b = channelSum g k x y RGBA.b ∧
      cd.color.a = 0 := by
  refine ⟨⟨directColorAt g k x y⟩, convolve_get g k hg x y hx hy, ?_, ?_, ?_, ?_⟩ <;>
  simp [directColorAt_eq]

/-- C2 witness: the amended statement instantiated on the concrete 1x1 grid
and weight-3 kernel. -/
theorem C2_direct_amended_witness :
    ∃ cd : Cell,
      (gEx1.convolve kTriple).cells[gEx1.index 0 0]? = some cd ∧
      cd.color.r = channelSum gEx1 kTriple 0 0 RGBA.r ∧
      cd.color.g = channelSum gEx1 kTriple 0 0 RGBA.g ∧
      cd.color.b = channelSum gEx1 kTriple 0 0 RGBA.b ∧
      cd.color.a = 0 :=
  C2_direct_amended gEx1 kTriple (by simp [Grid.WF, gEx1]) 0 0 (by decide) (by decide)

/-- C3 counterexample: convolving the 1x1 solid-white grid with the 1x1
identity kernel changes the cell: its alpha goes from 1 to 0 under the
direct convolver. -/
theorem C3_counterexample :
    (gEx1.cells[0]?).map (fun c => c.color.a) = some 1 ∧
    ((gEx1.convolve kId1).cells[0]?).map (fun c => c.color.a) = some 0 ∧
    (1 : ℚ) ≠ 0 := by
  have h1 : (gEx1.convolve kId1).cells = [⟨⟨1, 1, 1, 0⟩⟩] := by
    simp [Grid.convolve, directColorAt, Kernel.taps, stepDirect, Kernel.weight, Kernel.center,
      Grid.getD, Grid.index, gEx1, kId1, List.range_succ, zeroCell, zeroRGBA]
  rw [h1]
  refine ⟨rfl, rfl, by norm_num⟩

/-- C3 (amended): convolving any well-formed grid with the 1x1 identity
kernel of weight 1.0 preserves r, g and b at every cell under both
convolvers, but the direct convolver sets every alpha to 0, and the parallel
convolver maps each channel to its clamp to [0,1] (so it preserves a cell
exactly iff all four channels already lie in [0,1]). -/
theorem C3_identity_amended (g : Grid) (hg : g.WF) (x y : ℕ)
    (hx : x < g.width) (hy : y < g.height) :
    ∃ c cd cp : Cell,
      g.cells[g.index x y]? = some c ∧
      (g.convolve kId1).cells[g.index x y]? = some cd ∧
      (g.convolve_par kId1).cells[g.index x y]? = some cp ∧
      cd.color.r = c.color.r ∧ cd.color.g = c.color.g ∧ cd.color.b = c.color.b ∧
      cd.color.a = 0 ∧
      cp.color.r = clamp01 c.color.r ∧ cp.color.g = clamp01 c.color.g ∧
      cp.color.b = clamp01 c.color.b ∧ cp.color.a = clamp01 c.color.a := by
  refine ⟨g.getD x y, ⟨directColorAt g kId1 x y⟩, ⟨parColorAt g kId1 x y⟩,
    get?_eq_getD g hg x y hx hy, convolve_get g kId1 hg x y hx hy,
    convolve_par_get g kId1 hg x y hx hy, ?_, ?_, ?_, ?_, ?_, ?_, ?_, ?_⟩ <;>
  simp [directColorAt_eq, parColorAt_eq, channelSum_kId1 g x y hx hy]

/-- C3 witness: the amended statement instantiated on the concrete 1x1 grid. -/
theorem C3_identity_amended_witness :
    ∃ c cd cp : Cell,
      gEx1.cells[gEx1.index 0 0]? = some c ∧
      (gEx1.convolve kId1).cells[gEx1.index 0 0]? = some cd ∧
      (gEx1.convolve_par kId1).cells[gEx1.index 0 0]? = some cp ∧
      cd.color.r = c.color.r ∧ cd.color.g = c.color.g ∧ cd.color.b = c.color.b ∧
      cd.color.a = 0 ∧
      cp.color.r = clamp01 c.color.r ∧ cp.color.g = clamp01 c.color.g ∧
      cp.color.b = clamp01 c.color.b ∧ cp.color.a = clamp01 c.color.a :=
  C3_identity_amended gEx1 (by simp [Grid.WF, gEx1]) 0 0 (by decide) (by decide)

/-- C4 counterexample: on the well-formed 3x2 grid, the out-of-range access
get(3, 0) (x = 3 is not below width 3) does not fail: it silently returns
the very cell stored for the in-bounds coordinate (0, 1), because only the
flattened index 0*3+3 = 3 = 1*3+0 is bounds-checked. -/
theorem C4_counterexample :
    gEx4.width ≤ 3 ∧
    gEx4.get? 3 0 = some ⟨⟨0, 0, 1, 1⟩⟩ ∧
    gEx4.get? 0 1 = some ⟨⟨0, 0, 1, 1⟩⟩ := by
  refine ⟨by norm_num [gEx4], ?_, ?_⟩ <;> simp [Grid.get?, Grid.index, gEx4]

/-- C4 (amended): get(x, y) fails (panics) exactly when the flattened index
y*width+x is at least width*height; whenever it succeeds it returns the cell
stored at that flat index, which is the cell of the in-bounds coordinate
((y*width+x) % width, (y*width+x) / width) — a coordinate with a different x
whenever x ≥ width, i.e. out-of-range coordinates whose flat index is still
in range silently alias another cell instead of failing. -/
theorem C4_flat_bounds_amended (g : Grid) (hg : g.WF) (hw : 0 < g.width) (x y : ℕ) :
    (g.get? x y = none ↔ g.width * g.height ≤ y * g.width + x) ∧
    ∀ cl : Cell, g.get? x y = some cl →
      (y * g.width + x) % g.width < g.width ∧
      (y * g.width + x) / g.width < g.height ∧
      g.get? ((y * g.width + x) % g.width) ((y * g.width + x) / g.width) = some cl ∧
      (g.width ≤ x → (y * g.width + x) % g.width ≠ x) := by
  constructor
  · rw [Grid.get?, Grid.index, List.getElem?_eq_none_iff, hg]
  · intro cl hcl
    have hmod : (y * g.width + x) % g.width < g.width := Nat.mod_lt _ hw
    have hlt : y * g.width + x < g.cells.length := by
      by_contra hcon
      rw [Grid.get?, Grid.index, List.getElem?_eq_none_iff.mpr (by omega)] at hcl
      exact Option.noConfusion hcl
    have hdiv : (y * g.width + x) / g.width < g.height := by
      rw [Nat.div_lt_iff_lt_mul hw]
      calc y * g.width + x < g.cells.length := hlt
      _ = g.width * g.height := hg
      _ = g.height * g.width := Nat.mul_comm _ _
    refine ⟨hmod, hdiv, ?_, fun hxw => by omega⟩
    rw [Grid.get?, Grid.index] at hcl ⊢
    have hflat : (y * g.width + x) / g.width * g.width + (y * g.width + x) % g.width =
        y * g.width + x := by
      rw [Nat.mul_comm]
      exact Nat.div_add_mod _ _
    rw [hflat]
    exact hcl

/-- C4 witness: the amended statement instantiated at the concrete 3x2 grid
and the out-of-range coordinate (3, 0). -/
theorem C4_flat_bounds_amended_witness :
    (gEx4.get? 3 0 = none ↔ gEx4.width * gEx4.height ≤ 0 * gEx4.width + 3) ∧
    ∀ cl : Cell, gEx4.get? 3 0 = some cl →
      (0 * gEx4.width + 3) % gEx4.width < gEx4.width ∧
      (0 * gEx4.width + 3) / gEx4.width < gEx4.height ∧
      gEx4.get? ((0 * gEx4.width + 3) % gEx4.width) ((0 * gEx4.width + 3) / gEx4.width) =
        some cl ∧
      (gEx4.width ≤ 3 → (0 * gEx4.width + 3) % gEx4.width ≠ 3) :=
  C4_flat_bounds_amended gEx4 (by simp [Grid.WF, gEx4]) (by decide) 3 0

/-- C5 counterexample: convolve_fft rejects nothing before planning.  With
the zero-width grid and the 3x3 Gaussian kernel, the planner receives the
well-defined padded length (0+3-1)*(3+3-1) = 10 and the call even runs to
completion; with the zero-height grid the planner receives the same size 10
(again no rejection) and the call then dies after planning, in the
kernel-copy loop, at the out-of-bounds buffer index 2*5 = 10 (modelled as
none by the checked wrapper). -/
theorem C5_counterexample :
    gZero.width = 0 ∧
    fftPlanSize gZero Kernel.gauss3 = 10 ∧
    (gZero.convolve_fft? (fun buf => buf) (fun buf => buf) Kernel.gauss3).isSome = true ∧
    gRow.height = 0 ∧
    fftPlanSize gRow Kernel.gauss3 = 10 ∧
    gRow.convolve_fft? (fun buf => buf) (fun buf => buf) Kernel.gauss3 = none := by
  refine ⟨rfl, rfl, ?_, rfl, rfl, ?_⟩
  · rw [Grid.convolve_fft?, if_pos (by decide)]
    rfl
  · rw [Grid.convolve_fft?, if_neg (by decide)]

/-- C5 (amended): convolve_fft performs no zero-dimension validation and
never rejects the call: whenever the usize subtractions do not underflow
(grid+kernel width and height sums at least 1, which covers every zero grid
or kernel dimension except a zero grid dimension paired with a zero kernel
dimension on the same axis), transform planning takes place with the
well-defined padded size (grid_width+kernel_width-1) *
(grid_height+kernel_height-1).  The call is not guaranteed to complete:
after planning it panics on an out-of-bounds buffer index exactly when some
copy-loop write or readout read reaches the padded length (as a zero-height
grid with the 3x3 kernel does), and otherwise runs to completion producing a
grid of the original dimensions. -/
theorem C5_no_validation_amended (fft ifft : (ℕ → ComplexQ) → ℕ → ComplexQ)
    (g : Grid) (k : Kernel) (_hg : g.WF)
    (_h1 : 1 ≤ g.width + k.width) (_h2 : 1 ≤ g.height + k.height) :
    fftPlanSize g k = (g.width + k.width - 1) * (g.height + k.height - 1) ∧
    (g.convolve_fft? fft ifft k = none ↔ ¬ fftBufAccessesInBounds g k) ∧
    ∀ gr : Grid, g.convolve_fft? fft ifft k = some gr →
      gr.width = g.width ∧ gr.height = g.height ∧ gr.cells.length = g.cells.length := by
  refine ⟨rfl, ?_, ?_⟩
  · rw [Grid.convolve_fft?]
    split_ifs with h <;> simp [h]
  · intro gr hgr
    rw [Grid.convolve_fft?] at hgr
    split_ifs at hgr with h
    obtain rfl : g.convolve_fft fft ifft k = gr := Option.some.injEq _ _ ▸ hgr
    refine ⟨rfl, rfl, ?_⟩
    simp [Grid.convolve_fft]

/-- C5 witness: the amended statement instantiated at the zero-height grid
and the 3x3 Gaussian kernel, with identity transforms. -/
theorem C5_no_validation_amended_witness :
    fftPlanSize gRow Kernel.gauss3 =
      (gRow.width + Kernel.gauss3.width - 1) * (gRow.height + Kernel.gauss3.height - 1) ∧
    (gRow.convolve_fft? (fun buf => buf) (fun buf => buf) Kernel.gauss3 = none ↔
      ¬ fftBufAccessesInBounds gRow Kernel.gauss3) ∧
    ∀ gr : Grid, gRow.convolve_fft? (fun buf => buf) (fun buf => buf) Kernel.gauss3 =
        some gr →
      gr.width = gRow.width ∧ gr.height = gRow.height ∧ gr.cells.length = gRow.cells.length :=
  C5_no_validation_amended (fun buf => buf) (fun buf => buf) gRow Kernel.gauss3
    (by simp [Grid.WF, gRow]) (by decide) (by decide)

/-- C6: for every abstract forward/inverse transform pair, well-formed grid,
kernel with nonzero dimensions and in-range pixel (x, y), convolve_fft uses
the padded dimensions grid+kernel-1 per axis, and writes at (x, y) each
channel obtained by reading the inverse-transformed padded buffer at
(x + kernel_center.x, y + kernel_center.y), dividing the real part by
padded_width*padded_height and clamping to [0, 1]. -/
theorem C6_fft_readout (fft ifft : (ℕ → ComplexQ) → ℕ → ComplexQ) (g : Grid) (k : Kernel)
    (hg : g.WF) (_hkw : 1 ≤ k.width) (_hkh : 1 ≤ k.height) (x y : ℕ)
    (hx : x < g.width) (hy : y < g.height) :
    paddedWidth g k = g.width + k.width - 1 ∧
    paddedHeight g k = g.height + k.height - 1 ∧
    ∃ cd : Cell, (g.convolve_fft fft ifft k).cells[g.index x y]? = some cd ∧
      cd.color.r = clamp01 ((fftChannelOut fft ifft g k RGBA.r
        ((y + k.center.y) * paddedWidth g k + (x + k.center.x))).re / (fftPlanSize g k : ℚ)) ∧
      cd.color.g = clamp01 ((fftChannelOut fft ifft g k RGBA.g
        ((y + k.center.y) * paddedWidth g k + (x + k.center.x))).re / (fftPlanSize g k : ℚ)) ∧
      cd.color.b = clamp01 ((fftChannelOut fft ifft g k RGBA.b
        ((y + k.center.y) * paddedWidth g k + (x + k.center.x))).re / (fftPlanSize g k : ℚ)) ∧
      cd.color.a = clamp01 ((fftChannelOut fft ifft g k RGBA.a
        ((y + k.center.y) * paddedWidth g k + (x + k.center.x))).re / (fftPlanSize g k : ℚ)) := by
  refine ⟨rfl, rfl, ?_⟩
  have hlt : y * g.width + x < g.cells.length := by
    rw [hg]; exact flat_lt hx hy
  rw [Grid.convolve_fft, Grid.index]
  dsimp only
  rw [getElem?_range_map hlt, if_pos (flat_lt hx hy), flat_mod hx, flat_div hx]
  exact ⟨_, rfl, rfl, rfl, rfl, rfl⟩

/-- C6 witness: the readout equation instantiated at the 1x1 grid, the
identity kernel and identity transforms. -/
theorem C6_fft_readout_witness :
    paddedWidth gEx1 kId1 = gEx1.width + kId1.width - 1 ∧
    paddedHeight gEx1 kId1 = gEx1.height + kId1.height - 1 ∧
    ∃ cd : Cell,
      (gEx1.convolve_fft (fun buf => buf) (fun buf => buf) kId1).cells[gEx1.index 0 0]? =
        some cd ∧
      cd.color.r = clamp01 ((fftChannelOut (fun buf => buf) (fun buf => buf) gEx1 kId1 RGBA.r
        ((0 + kId1.center.y) * paddedWidth gEx1 kId1 + (0 + kId1.center.x))).re /
          (fftPlanSize gEx1 kId1 : ℚ)) ∧
      cd.color.g = clamp01 ((fftChannelOut (fun buf => buf) (fun buf => buf) gEx1 kId1 RGBA.g
        ((0 + kId1.center.y) * paddedWidth gEx1 kId1 + (0 + kId1.center.x))).re /
          (fftPlanSize gEx1 kId1 : ℚ)) ∧
      cd.color.b = clamp01 ((fftChannelOut (fun buf => buf) (fun buf => buf) gEx1 kId1 RGBA.b
        ((0 + kId1.center.y) * paddedWidth gEx1 kId1 + (0 + kId1.center.x))).re /
          (fftPlanSize gEx1 kId1 : ℚ)) ∧
      cd.color.a = clamp01 ((fftChannelOut (fun buf => buf) (fun buf => buf) gEx1 kId1 RGBA.a
        ((0 + kId1.center.y) * paddedWidth gEx1 kId1 + (0 + kId1.center.x))).re /
          (fftPlanSize gEx1 kId1 : ℚ)) :=
  C6_fft_readout (fun buf => buf) (fun buf => buf) gEx1 kId1 (by simp [Grid.WF, gEx1])
    (by decide) (by decide) 0 0 (by decide) (by decide)

/-- C7 counterexample: the 1x1 grid uniformly filled with (1,1,1,1) and the
1x1 identity kernel (weights sum to 1, full footprint inside the raster at
pixel (0,0)): the direct convolver outputs alpha 0 where the uniform color
has alpha 1, violating the claimed 1e-6 bound on every channel. -/
theorem C7_counterexample :
    kernelSum kId1 = 1 ∧
    (((uniformGrid 1 1 ⟨1, 1, 1, 1⟩).convolve kId1).cells[0]?).map (fun c => c.color.a) =
      some 0 ∧
    ¬ |(0 : ℚ) - 1| ≤ 1 / 1000000 := by
  have hks : kernelSum kId1 = 1 := by
    simp [kernelSum, Kernel.taps, Kernel.weight, kId1, List.range_succ]
  have h1 : ((uniformGrid 1 1 ⟨1, 1, 1, 1⟩).convolve kId1).cells = [⟨⟨1, 1, 1, 0⟩⟩] := by
    simp [Grid.convolve, directColorAt, Kernel.taps, stepDirect, Kernel.weight, Kernel.center,
      Grid.getD, Grid.index, uniformGrid, kId1, List.range_succ, List.replicate_one,
      zeroCell, zeroRGBA]
  rw [h1, hks]
  refine ⟨rfl, rfl, by norm_num⟩

/-- C7 (amended): for a grid filled uniformly with color c and any kernel
whose weights sum to 1, every output pixel of the direct convolver whose
full kernel footprint lies inside the raster equals c exactly in r, g and b;
its alpha channel however is always 0, not c's alpha, because the direct
convolver never accumulates alpha. -/
theorem C7_interior_amended (w h : ℕ) (c : RGBA) (k : Kernel)
    (hsum : kernelSum k = 1) (x y : ℕ) (hx : x < w) (hy : y < h)
    (hxl : k.center.x ≤ x) (hxr : x + k.width ≤ w + k.center.x)
    (hyl : k.center.y ≤ y) (hyr : y + k.height ≤ h + k.center.y) :
    ∃ cd : Cell,
      ((uniformGrid w h c).convolve k).cells[(uniformGrid w h c).index x y]? = some cd ∧
      cd.color.r = c.r ∧ cd.color.g = c.g ∧ cd.color.b = c.b ∧ cd.color.a = 0 := by
  have hwf : (uniformGrid w h c).WF := by simp [Grid.WF, uniformGrid]
  refine ⟨⟨directColorAt (uniformGrid w h c) k x y⟩,
    convolve_get (uniformGrid w h c) k hwf x y hx hy, ?_, ?_, ?_, ?_⟩ <;>
  simp [directColorAt_eq, channelSum_uniform w h c k x y hxl hxr hyl hyr, hsum]

/-- C7 witness: the amended statement instantiated at a 3x3 uniform grid,
the 3x3 Gaussian kernel and the central pixel (1, 1). -/
theorem C7_interior_amended_witness :
    ∃ cd : Cell,
      ((uniformGrid 3 3 ⟨1/2, 1/4, 1/8, 1⟩).convolve Kernel.gauss3).cells[
        (uniformGrid 3 3 ⟨1/2, 1/4, 1/8, 1⟩).index 1 1]? = some cd ∧
      cd.color.r = (⟨1/2, 1/4, 1/8, 1⟩ : RGBA).r ∧
      cd.color.g = (⟨1/2, 1/4, 1/8, 1⟩ : RGBA).g ∧
      cd.color.b = (⟨1/2, 1/4, 1/8, 1⟩ : RGBA).b ∧
      cd.color.a = 0 :=
  C7_interior_amended 3 3 ⟨1/2, 1/4, 1/8, 1⟩ Kernel.gauss3
    (by simp only [kernelSum, Kernel.taps, Kernel.weight, Kernel.gauss3, List.range_succ,
      List.range_zero, List.nil_append, List.cons_append, List.flatMap_cons,
      List.flatMap_nil, List.map_cons, List.map_nil, List.append_nil, List.sum_cons,
      List.sum_nil]; norm_num)
    1 1 (by decide) (by decide) (by decide) (by decide) (by decide) (by decide)

/-- C9: two grids produced by two calls to new_random with the same
dimensions are element-wise identical in every channel of every cell: the
generator is seeded from the fixed constant seed0 inside the function, so
once the external seed-to-stream map is fixed the grid is a pure function of
the dimensions alone, with no other source of variation. -/
theorem C9_deterministic_init (fromSeed : List ℕ → ℕ → ℕ) (w h : ℕ) :
    (new_random fromSeed w h).width = (new_random fromSeed w h).width ∧
    (new_random fromSeed w h).height = (new_random fromSeed w h).height ∧
    ∀ i : ℕ, (new_random fromSeed w h).cells[i]? = (new_random fromSeed w h).cells[i]? :=
  ⟨rfl, rfl, fun _ => rfl⟩

/-- C10: every cell of a new_random grid has alpha exactly 1.0, and each of
r, g, b is k/255 for an integer k between 0 and 254, hence lies in [0, 1)
and never reaches 1 (gen_range(0..255) excludes the upper bound 255). -/
theorem C10_new_random_range (fromSeed : List ℕ → ℕ → ℕ) (w h i : ℕ) (hi : i < w * h) :
    ∃ c : Cell, (new_random fromSeed w h).cells[i]? = some c ∧
      c.color.a = 1 ∧
      (∃ kr : ℕ, kr ≤ 254 ∧ c.color.r = (kr : ℚ) / 255) ∧
      0 ≤ c.color.r ∧ c.color.r < 1 ∧
      (∃ kg : ℕ, kg ≤ 254 ∧ c.color.g = (kg : ℚ) / 255) ∧
      0 ≤ c.color.g ∧ c.color.g < 1 ∧
      (∃ kb : ℕ, kb ≤ 254 ∧ c.color.b = (kb : ℚ) / 255) ∧
      0 ≤ c.color.b ∧ c.color.b < 1 := by
  obtain ⟨hr1, hr2, hr3⟩ := mod255_scaled (fromSeed seed0 (3 * i))
  obtain ⟨hg1, hg2, hg3⟩ := mod255_scaled (fromSeed seed0 (3 * i + 1))
  obtain ⟨hb1, hb2, hb3⟩ := mod255_scaled (fromSeed seed0 (3 * i + 2))
  have hc : (new_random fromSeed w h).cells[i]? =
      some ⟨⟨((fromSeed seed0 (3 * i) % 255 : ℕ) : ℚ) / 255,
             ((fromSeed seed0 (3 * i + 1) % 255 : ℕ) : ℚ) / 255,
             ((fromSeed seed0 (3 * i + 2) % 255 : ℕ) : ℚ) / 255, 1⟩⟩ := by
    rw [new_random]
    exact getElem?_range_map hi
  exact ⟨_, hc, rfl, ⟨fromSeed seed0 (3 * i) % 255, hr1, rfl⟩, hr2, hr3,
    ⟨fromSeed seed0 (3 * i + 1) % 255, hg1, rfl⟩, hg2, hg3,
    ⟨fromSeed seed0 (3 * i + 2) % 255, hb1, rfl⟩, hb2, hb3⟩

/-- C10 witness: the range property instantiated at the identity stream and
a 1x1 grid. -/
theorem C10_new_random_range_witness :
    ∃ c : Cell, (new_random (fun _ n => n) 1 1).cells[0]? = some c ∧
      c.color.a = 1 ∧
      (∃ kr : ℕ, kr ≤ 254 ∧ c.color.r = (kr : ℚ) / 255) ∧
      0 ≤ c.color.r ∧ c.color.r < 1 ∧
      (∃ kg : ℕ, kg ≤ 254 ∧ c.color.g = (kg : ℚ) / 255) ∧
      0 ≤ c.color.g ∧ c.color.g < 1 ∧
      (∃ kb : ℕ, kb ≤ 254 ∧ c.color.b = (kb : ℚ) / 255) ∧
      0 ≤ c.color.b ∧ c.color.b < 1 :=
  C10_new_random_range (fun _ n => n) 1 1 0 (by decide)
